import Mathlib

/-!
Verification of the glock server-side session pipeline

Shallow embedding of the glock repository (a WebRTC AV-streaming server) in
Lean 4, together with proofs about the embedded operations.

Buffers (`Buffer` / `Uint8Array` values of the source) are modelled as
`List Nat`, one entry per byte.  Wall-clock instants (`Date.now()`) are
modelled as `Int` milliseconds.  JavaScript floating point arithmetic on
the small quantities involved (`1000 / fps`, timestamp seconds) is
modelled with `ℚ`.
-/

namespace Glock

/-! ## Framing codec

From `src/unnamed/part_011` (`WRTCHandler`): the data-channel `onMessage`
callback decodes an inbound datagram, and `sequencePacket` / `sendPacket`
encode an outbound `(header, payload)` pair into framed messages.
-/

/-- Inbound datagram handling, from the `dataChannel.onMessage` callback of
`WRTCHandler.handleWebRTCOffer` (`src/unnamed/part_011`, lines 61-76).
The callback throws (and the `catch` logs and drops the datagram) when
`maxPacketSize` is truthy and `msg.length > maxPacketSize`, or when
`msg.readUInt8(0)` is out of range (empty buffer); otherwise it emits
`(header = first byte, payload = msg.slice(1))`. -/
def framingDecode (maxPacketSize : Nat) (msg : List Nat) : Option (Nat × List Nat) :=
  if maxPacketSize ≠ 0 ∧ msg.length > maxPacketSize then none
  else
    match msg with
    | [] => none
    | h :: rest => some (h, rest)

/-- Loop of `WRTCHandler.sequencePacket` (`src/unnamed/part_011`,
lines 109-118), recursing on an explicit fuel.  The JS loop advances
`i += maxPacketSize` and pushes `min(maxPacketSize, remainingBytes)` bytes
per iteration; with `1 ≤ maxPacketSize` it performs at most `data.length`
iterations, so `data.length` fuel suffices (`sequencePacketAux_congr`). -/
def sequencePacketAux (maxPacketSize : Nat) : Nat → List Nat → List (List Nat)
  | _, [] => []
  | 0, _ => []
  | fuel + 1, data =>
      data.take maxPacketSize :: sequencePacketAux maxPacketSize fuel (data.drop maxPacketSize)

/-- Embedding of `WRTCHandler.sequencePacket` (`src/unnamed/part_011`, lines 109-118):
split `data` into consecutive slices of at most `maxPacketSize` bytes. -/
def sequencePacket (maxPacketSize : Nat) (data : List Nat) : List (List Nat) :=
  sequencePacketAux maxPacketSize data.length data

/-- Embedding of `WRTCHandler.sendPacket` (`src/unnamed/part_011`, lines 125-153):
for each slice produced by `sequencePacket`, build `header || slice` and
send it on the data channel.  The returned list holds the framed binary
messages in emission order. -/
def sendPacket (maxPacketSize : Nat) (header : Nat) (data : List Nat) : List (List Nat) :=
  (sequencePacket maxPacketSize data).map (fun chunk => header :: chunk)

/-! ## AVSession (`src/server/src/av/index.ts`)

The `AV` class owns a `VideoProcessor`, a frame queue, a chunk-arrival
watchdog (interval timer) and pacing state.  The mutable fields are
gathered in `AVState`; `Date.now()` instants are `Int` milliseconds.
The child-process liveness of the processor (`videoProcessor.isRunning()`)
is the `isRunning` flag; `AV.stop` awaits `videoProcessor.stop()`, which
ends with the child exited and the internal process cleared, so the
post-state of `avStop` has `isRunning = false`. -/

/-- Constant `DEFAULT_CHUNK_WAIT_TIMEOUT` from `src/server/src/defaults.ts`: 10 s. -/
def DEFAULT_CHUNK_WAIT_TIMEOUT : Int := 10000

/-- Constant `DEFAULT_CHUNK_WAIT_CHECK_INTERVAL` from `src/server/src/defaults.ts`: 1 s. -/
def DEFAULT_CHUNK_WAIT_CHECK_INTERVAL : Int := 1000

/-- Mutable per-session state of the `AV` class (`src/server/src/av/index.ts`,
lines 20-28 and `options`). -/
structure AVState where
  isRunning : Bool
  isReady : Bool
  lastChunkTime : Int
  watchdogActive : Bool
  frameQueue : List (List Nat)
  isProcessingFrame : Bool
  frameInterval : ℚ
  lastFrameTime : Int
  chunkWaitTimeout : Int
deriving Repr, DecidableEq

/-- Embedding of `AV.put` (`src/server/src/av/index.ts`, lines 101-116): always update
`lastChunkTime`; if the processor is not running, log and return (chunk
dropped); else push the chunk on the frame queue and kick the pacing
worker (whose synchronous prefix marks `isProcessingFrame`).  Returns the
updated state, whether the chunk was enqueued, and the header bytes sent
to the peer during the call — none on either path in this revision. -/
def avPut (s : AVState) (now : Int) (data : List Nat) : AVState × Bool × List Nat :=
  let s1 := { s with lastChunkTime := now }
  if s1.isRunning = false then (s1, false, [])
  else ({ s1 with frameQueue := s1.frameQueue ++ [data], isProcessingFrame := true },
        true, [])

/-- Embedding of `AV.stop` (`src/server/src/av/index.ts`, lines 156-166): cancel the
watchdog, clear the queue and timing state, and stop the processor. -/
def avStop (s : AVState) : AVState :=
  { s with
    watchdogActive := false
    frameQueue := []
    isProcessingFrame := false
    lastChunkTime := 0
    frameInterval := 0
    lastFrameTime := 0
    isRunning := false }

/-- Result of one watchdog tick: the new state, whether the `timeout`
event was emitted, and whether `encoder.stop` was invoked (via `AV.stop`). -/
structure TickResult where
  state : AVState
  timedOut : Bool
  encoderStopInvoked : Bool
deriving Repr, DecidableEq

/-- Embedding of `AV.onChunkWaitCheckInterval` (`src/server/src/av/index.ts`,
lines 147-154): on each tick, if `now - lastChunkTime > chunkWaitTimeout`,
call `this.stop()` and emit `timeout`. -/
def onChunkWaitCheckInterval (s : AVState) (now : Int) : TickResult :=
  if now - s.lastChunkTime > s.chunkWaitTimeout then
    { state := avStop s, timedOut := true, encoderStopInvoked := true }
  else
    { state := s, timedOut := false, encoderStopInvoked := false }

/-- Header bytes the owning client session sends to the peer as a result of
one watchdog tick: `src/unnamed/part_009`, lines 46-52, registers
`av.once("timeout", ...)` which calls `client.wrtcHandler.sendHeader(0x36)`. -/
def clientHeadersOnTick (s : AVState) (now : Int) : List Nat :=
  if (onChunkWaitCheckInterval s now).timedOut then [0x36] else []

/-- A stopped session used as concrete input: the processor has exited
(`isRunning = false`), watchdog still armed, queue empty. -/
def stoppedSession : AVState :=
  { isRunning := false, isReady := true, lastChunkTime := 0,
    watchdogActive := true, frameQueue := [], isProcessingFrame := false,
    frameInterval := 0, lastFrameTime := 0, chunkWaitTimeout := 10000 }

/-! ### Watchdog-reset trace semantics (for C10)

`AV.put` and `AV.onChunkWaitCheckInterval` interleave on the event loop;
a trace is a time-ordered list of such events. -/

/-- One externally observable AV-session event: a `put` call or a watchdog
tick, each carrying its `Date.now()` value. -/
inductive AVEvent
  | put (now : Int) (data : List Nat)
  | tick (now : Int)
deriving Repr, DecidableEq

/-- Run a trace of `put` calls and watchdog ticks; the Boolean records
whether any tick emitted `timeout`. -/
def runAV (s : AVState) : List AVEvent → AVState × Bool
  | [] => (s, false)
  | AVEvent.put t d :: rest => runAV (avPut s t d).1 rest
  | AVEvent.tick t :: rest =>
      let r := onChunkWaitCheckInterval s t
      let res := runAV r.state rest
      (res.1, r.timedOut || res.2)

/-- The client keeps the session alive: every tick in the trace happens at
most `timeout` ms after the most recent `put` (or after the starting
`lastChunkTime` if no `put` happened yet). -/
def chunkGapsOK (timeout : Int) : Int → List AVEvent → Bool
  | _, [] => true
  | _, AVEvent.put t _ :: rest => chunkGapsOK timeout t rest
  | last, AVEvent.tick t :: rest =>
      if t - last ≤ timeout then chunkGapsOK timeout last rest else false

/-! ### Frame pacing (for C2) -/

/-- Embedding of line 89 of `AV.start` (`src/server/src/av/index.ts`):
`this.frameInterval = 1000 / (this.streamConfig.encoder?.video?.fps || 30)`.
An absent fps — and `0`, which is falsy in JS — falls back to 30. -/
def frameIntervalOf (fps : Option Nat) : ℚ :=
  1000 / (match fps with
          | some f => if f = 0 then (30 : ℚ) else (f : ℚ)
          | none => (30 : ℚ))

/-- The wait `AV.processNextFrame` performs before dispatching the next
queued chunk to `videoProcessor.processChunk`
(`src/server/src/av/index.ts`, lines 126-134): with
`elapsed = now - lastFrameTime`, it sleeps `frameInterval - elapsed` when
`elapsed < frameInterval` and dispatches immediately otherwise. -/
def frameWait (frameInterval now lastFrameTime : ℚ) : ℚ :=
  let elapsed := now - lastFrameTime
  if elapsed < frameInterval then frameInterval - elapsed else 0

/-! ## Signaling authentication (`src/unnamed/part_002`, `WSHandler`)

JS strings are modelled as `List Char`; `undefined` as `none`.
`String.prototype.split` with a one-character separator is `List.splitOn`,
which agrees with JS on every case reached here (in particular
`"".split(c) = [""]`). -/

/-- The key extraction of `WSHandler.verifyAuthKey` (`src/unnamed/part_002`,
line 95): `request.url?.split("?")[1]?.split("=")[1]` — the part of the URL
after the first `?`, then the part of that between the first and second
`=` (or its end). -/
def extractAuthKey (url : Option (List Char)) : Option (List Char) :=
  (url.bind fun u => (u.splitOn '?').get? 1).bind fun q => (q.splitOn '=').get? 1

/-- Embedding of `WSHandler.verifyAuthKey` (`src/unnamed/part_002`, lines 94-99):
accept when the configured key is falsy (empty), or when the extracted
value strictly equals it (`undefined === key` is false). -/
def verifyAuthKey (serverKey : List Char) (url : Option (List Char)) : Bool :=
  decide (serverKey = []) || decide (extractAuthKey url = some serverKey)

/-- Outcome of an inbound signaling connection. -/
inductive ConnOutcome
  | rejected (closeCode : Nat)
  | accepted
deriving Repr, DecidableEq

/-- Embedding of `WSHandler.onConnected` (`src/unnamed/part_002`, lines 33-47): on a
failed key check, close the socket with code 1002 and return before
`addClient` — no client session is created; otherwise create the client. -/
def onConnected (serverKey : List Char) (url : Option (List Char)) : ConnOutcome :=
  if verifyAuthKey serverKey url then ConnOutcome.accepted
  else ConnOutcome.rejected 1002

/-- Reading of the check taken by the spec (§4.5 signaling step 1): the value of
the query parameter named `authKey` — split the query on `&`, find the
pair whose name (before the first `=`) is `authKey`, return its value.
Defined from the words of the spec, for comparison with the parse the
code performs in `extractAuthKey`. -/
def specAuthKeyParam (url : Option (List Char)) : Option (List Char) :=
  (url.bind fun u => (u.splitOn '?').get? 1).bind fun q =>
    (q.splitOn '&').findSome? fun kv =>
      match kv.splitOn '=' with
      | name :: rest =>
          if name = "authKey".toList then some (List.intercalate ['='] rest)
          else none
      | [] => none

/-! ## FFmpeg argument synthesis
(`src/unnamed/part_008`, `FFmpegProcessor.buildFFmpegArgs`) -/

/-- Fields of `StreamConfig.encoder.video` (`src/server/src/defaults.ts`); the fps
and bitrate fields are integers per the data model. -/
structure FFVideo where
  codec : String
  bitrate : Nat
  fps : Nat
deriving Repr, DecidableEq

/-- Fields of `StreamConfig.encoder.audio`. -/
structure FFAudio where
  codec : String
  bitrate : Nat
  sampleRate : Nat
deriving Repr, DecidableEq

/-- Fields of `StreamConfig.destination`; `type` is `file`, `rtmp` or null, `path`
may be absent (`?? "pipe:1"` applies). -/
structure FFDestination where
  type : Option String
  path : Option String
deriving Repr, DecidableEq

/-- The fields of `StreamConfig` that `buildFFmpegArgs` reads. -/
structure FFStreamConfig where
  video : FFVideo
  audio : FFAudio
  destination : FFDestination
deriving Repr, DecidableEq

/-- Modelled from the spec: `getFFmpegDestType` is imported from
`src/server/src/utils/ffmpeg.js`, a file absent from the snapshot.  Per
§3 and §4.2(e), a null destination type selects no `-f` block (raw pipe)
and a present one selects an output container format whose concrete
string the spec treats as opaque; we pass the type through.  No claim
below depends on the returned string, only on its presence. -/
def getFFmpegDestType (t : Option String) : Option String := t

/-- Embedding of `FFmpegProcessor.buildFFmpegArgs` (`src/unnamed/part_008`,
lines 35-130).  `gopSize` is `Math.round(encoder.video.fps * 2)`; `fps`
is an integer, so the rounding is the identity and the GOP is `2 * fps`. -/
def buildFFmpegArgs (c : FFStreamConfig) : List String :=
  let gopSize := toString (c.video.fps * 2)
  let base := ["-i", "pipe:0", "-f", "mpegts", "-c:v", c.video.codec]
  let videoArgs :=
    if c.video.codec = "libx264" then
      ["-preset", "veryfast", "-tune", "zerolatency", "-crf", "23",
       "-maxrate", toString c.video.bitrate ++ "k",
       "-bufsize", toString (c.video.bitrate * 2) ++ "k",
       "-g", gopSize, "-sc_threshold", "0", "-threads", "0"]
    else if c.video.codec = "h264_nvenc" ∨ c.video.codec = "hevc_nvenc" then
      ["-preset", "p4", "-tune", "ll", "-rc", "vbr", "-cq", "23",
       "-qmin", "0", "-qmax", "51",
       "-b:v", toString c.video.bitrate ++ "k",
       "-maxrate", toString c.video.bitrate ++ "k",
       "-bufsize", toString (c.video.bitrate * 2) ++ "k",
       "-g", gopSize, "-sc_threshold", "0",
       "-i_qfactor", "0.75", "-b_qfactor", "1.1"]
    else []
  let audioArgs :=
    ["-c:a", c.audio.codec, "-b:a", toString c.audio.bitrate,
     "-ar", toString c.audio.sampleRate,
     "-filter_complex",
     "[0:v]fps=" ++ toString c.video.fps ++
       ",format=yuv420p[v];[0:a]aresample=async=1[a]",
     "-map", "[v]", "-map", "[a]", "-fps_mode", "vfr",
     "-max_muxing_queue_size", "1024"]
  let destArgs :=
    match getFFmpegDestType c.destination.type with
    | some t => ["-f", t]
    | none => []
  base ++ videoArgs ++ audioArgs ++ destArgs ++ [c.destination.path.getD "pipe:1"]

/-! ## GStreamer stats parsing
(`src/server/src/utils/gstreamer.ts`, `parseGstStats`)

The parser keeps two module-level variables across calls
(`lastProcessedTimestamp`, `lastProcessedStats`); each call receives one
stderr chunk.  We abstract a chunk as the outcome of the regex matches the
function performs, and make the mutable variables an explicit state. -/

/-- One emitted stats record (interface `GSTStats` of `gstreamer.ts`).
An emitted record always carries a timestamp, since emission requires the
`next_ts` match; the remaining fields stay `none` when their regex did
not match.  `fps` is `outFrames` minus the `outFrames` of the previous record
(0 when absent), which can be negative, hence `Int`. -/
structure GSTStats where
  fps : Option Int
  inFrames : Option Nat
  outFrames : Option Nat
  droppedFrames : Option Nat
  duplicatedFrames : Option Nat
  timestamp : ℚ
deriving Repr, DecidableEq

/-- The module-level mutable state of `gstreamer.ts` (lines 12-13). -/
structure GstParserState where
  lastProcessedTimestamp : Int
  lastProcessedStats : Option GSTStats
deriving Repr, DecidableEq

/-- Initial module state: `lastProcessedTimestamp = 0`,
`lastProcessedStats = null`. -/
def gstInitialState : GstParserState :=
  { lastProcessedTimestamp := 0, lastProcessedStats := none }

/-- Abstraction of one stderr chunk as the results of the regex matches
performed by `parseGstStats`: whether the text contains `END`, the four
capture groups of the `next_ts` hours:minutes:seconds.fraction match, and
the captures of the `in`, `out`, `drop` and `dup` counters. -/
structure GstLine where
  hasEnd : Bool
  timeMatch : Option (Nat × Nat × Nat × Nat)
  inMatch : Option Nat
  outMatch : Option Nat
  dropMatch : Option Nat
  dupMatch : Option Nat
deriving Repr, DecidableEq

/-- The timestamp `parseGstStats` computes from the four capture groups:
`hours*3600 + minutes*60 + seconds + fraction/1000000` seconds
(`src/server/src/utils/gstreamer.ts`, lines 21-28). -/
def gstTimestamp (h m s micro : Nat) : ℚ :=
  h * 3600 + m * 60 + s + (micro : ℚ) / 1000000

/-- The record `parseGstStats` builds when emission is not suppressed:
the matched counters, the timestamp, and `fps` derived from the change in
`outFrames` since the last emitted record
(`src/server/src/utils/gstreamer.ts`, lines 39-69). -/
def gstResult (st : GstParserState) (line : GstLine) (ts : ℚ) : GSTStats :=
  { timestamp := ts
    inFrames := line.inMatch
    outFrames := line.outMatch
    droppedFrames := line.dropMatch
    duplicatedFrames := line.dupMatch
    fps := line.outMatch.map fun o =>
      (o : Int) - ((st.lastProcessedStats.bind GSTStats.outFrames).getD 0 : Nat) }

/-- Embedding of `parseGstStats` (`src/server/src/utils/gstreamer.ts`, lines 15-72):
return `null` without `END` or without a timestamp match; return `null`
when `Math.floor(timestamp)` is not strictly above the stored
`lastProcessedTimestamp` (at most one record per truncated second);
otherwise emit the record and store the floored timestamp and the record. -/
def parseGstStats (st : GstParserState) (line : GstLine) :
    Option GSTStats × GstParserState :=
  if line.hasEnd = false then (none, st)
  else
    match line.timeMatch with
    | none => (none, st)
    | some (h, m, s, micro) =>
        if ⌊gstTimestamp h m s micro⌋ ≤ st.lastProcessedTimestamp then (none, st)
        else
          (some (gstResult st line (gstTimestamp h m s micro)),
           { lastProcessedTimestamp := ⌊gstTimestamp h m s micro⌋
             lastProcessedStats := some (gstResult st line (gstTimestamp h m s micro)) })

/-- Run `parseGstStats` over a sequence of chunks, collecting the emitted
records in order. -/
def runGst (st : GstParserState) : List GstLine → List GSTStats
  | [] => []
  | l :: rest =>
      let p := parseGstStats st l
      match p.1 with
      | none => runGst p.2 rest
      | some r => r :: runGst p.2 rest

theorem sequencePacketAux_nil (m fuel : Nat) : sequencePacketAux m fuel [] = [] := by
  cases fuel <;> rfl

theorem sequencePacketAux_congr (m : Nat) (hm : 1 ≤ m) :
    ∀ f1 f2 (data : List Nat), data.length ≤ f1 → data.length ≤ f2 →
      sequencePacketAux m f1 data = sequencePacketAux m f2 data := by
  intro f1
  induction f1 with
  | zero =>
      intro f2 data h1 _
      have : data = [] := List.length_eq_zero.mp (Nat.le_zero.mp h1)
      subst this
      rw [sequencePacketAux_nil, sequencePacketAux_nil]
  | succ n ih =>
      intro f2 data h1 h2
      cases data with
      | nil => rw [sequencePacketAux_nil, sequencePacketAux_nil]
      | cons x xs =>
          cases f2 with
          | zero => simp at h2
          | succ k =>
              show sequencePacketAux m (n + 1) (x :: xs)
                 = sequencePacketAux m (k + 1) (x :: xs)
              simp only [sequencePacketAux]
              have hd : ((x :: xs).drop m).length ≤ xs.length := by
                rcases m with _ | m
                · omega
                · simp [List.length_drop]
              have hxs : xs.length ≤ n := by simpa using h1
              have hxs2 : xs.length ≤ k := by simpa using h2
              rw [ih n ((x :: xs).drop m) (le_trans hd hxs) (le_trans hd hxs)]
              rw [ih k ((x :: xs).drop m) (le_trans hd hxs) (le_trans hd hxs2)]

/-- Unfolding equation for `sequencePacket` on a non-empty buffer. -/
theorem sequencePacket_cons (m : Nat) (hm : 1 ≤ m) (a : Nat) (l : List Nat) :
    sequencePacket m (a :: l) =
      (a :: l).take m :: sequencePacket m ((a :: l).drop m) := by
  show sequencePacketAux m (l.length + 1) (a :: l) = _
  simp only [sequencePacketAux]
  have hd : ((a :: l).drop m).length ≤ l.length := by
    rcases m with _ | m
    · omega
    · simp [List.length_drop]
  rw [sequencePacketAux_congr m hm l.length ((a :: l).drop m).length _ hd le_rfl]
  rfl

/-- Every slice produced by `sequencePacket` has at most `maxPacketSize` bytes. -/
theorem sequencePacket_slice_le (m : Nat) (hm : 1 ≤ m) :
    ∀ (data : List Nat), ∀ c ∈ sequencePacket m data, c.length ≤ m := by
  suffices h : ∀ n (data : List Nat), data.length ≤ n →
      ∀ c ∈ sequencePacket m data, c.length ≤ m by
    intro data
    exact h data.length data le_rfl
  intro n
  induction n with
  | zero =>
      intro data h1 c hc
      have : data = [] := List.length_eq_zero.mp (Nat.le_zero.mp h1)
      subst this
      simp [sequencePacket, sequencePacketAux] at hc
  | succ k ih =>
      intro data h1 c hc
      cases data with
      | nil => simp [sequencePacket, sequencePacketAux] at hc
      | cons a l =>
          rw [sequencePacket_cons m hm] at hc
          simp only [List.length_cons] at h1
          rcases List.mem_cons.mp hc with hc | hc
          · subst hc
            simp only [List.length_take, List.length_cons]
            omega
          · have hd : ((a :: l).drop m).length ≤ k := by
              rcases m with _ | m
              · omega
              · simp only [List.length_drop, List.length_cons]
                omega
            exact ih _ hd c hc

/-- The slices produced by `sequencePacket` concatenate back to the input. -/
theorem sequencePacket_flatten (m : Nat) (hm : 1 ≤ m) :
    ∀ (data : List Nat), (sequencePacket m data).flatten = data := by
  suffices h : ∀ n (data : List Nat), data.length ≤ n →
      (sequencePacket m data).flatten = data by
    intro data
    exact h data.length data le_rfl
  intro n
  induction n with
  | zero =>
      intro data h1
      have : data = [] := List.length_eq_zero.mp (Nat.le_zero.mp h1)
      subst this
      rfl
  | succ k ih =>
      intro data h1
      cases data with
      | nil => rfl
      | cons a l =>
          rw [sequencePacket_cons m hm]
          simp only [List.length_cons] at h1
          have hd : ((a :: l).drop m).length ≤ k := by
            rcases m with _ | m
            · omega
            · simp only [List.length_drop, List.length_cons]
              omega
          simp only [List.flatten_cons, ih _ hd]
          exact List.take_append_drop m (a :: l)

/-- C3: a datagram of length between 1 and `maxPacketSize` (inclusive) is
accepted and decoded as (first byte, remaining bytes); an empty datagram or
one longer than `maxPacketSize` is dropped (decoded to `none`) without
tearing anything down.  The boundary cases length `= maxPacketSize`
(accepted) and `= maxPacketSize + 1` (rejected) are instances; see the
witness. -/
theorem framingDecode_accepts_iff_size_ok (m : Nat) (hm : 0 < m) (msg : List Nat) :
    (1 ≤ msg.length → msg.length ≤ m →
        framingDecode m msg = some (msg.headI, msg.tail)) ∧
    (msg.length = 0 ∨ m < msg.length → framingDecode m msg = none) := by
  constructor
  · intro h1 h2
    cases msg with
    | nil => simp at h1
    | cons a l =>
        have hcond : ¬ (m ≠ 0 ∧ (a :: l).length > m) := by
          simp only [List.length_cons] at h2 ⊢
          omega
        simp only [framingDecode]
        rw [if_neg hcond]
        rfl
  · intro h
    cases msg with
    | nil => simp [framingDecode]
    | cons a l =>
        have hcond : m ≠ 0 ∧ (a :: l).length > m := by
          simp only [List.length_cons] at h ⊢
          omega
        simp only [framingDecode]
        rw [if_pos hcond]

/-- Witness for C3 at `maxPacketSize = 3`: the datagram `[5,6,7]` of length
exactly `maxPacketSize` is accepted and split into header `5` and payload
`[6,7]`, while `[5,6,7,8]` of length `maxPacketSize + 1` is dropped, and the
empty datagram is dropped. -/
theorem framingDecode_accepts_iff_size_ok_witness :
    framingDecode 3 [5, 6, 7] = some (5, [6, 7]) ∧
    framingDecode 3 [5, 6, 7, 8] = none ∧
    framingDecode 3 [] = none := by
  refine ⟨?_, ?_, ?_⟩
  · have h := (framingDecode_accepts_iff_size_ok 3 (by decide) [5, 6, 7]).1
      (by decide) (by decide)
    simpa using h
  · exact (framingDecode_accepts_iff_size_ok 3 (by decide) [5, 6, 7, 8]).2
      (by decide)
  · exact (framingDecode_accepts_iff_size_ok 3 (by decide) []).2 (by decide)

/-- Counterexample to C4 as stated: with `maxPacketSize = 2` and the 3-byte
payload `[1,2,3]` (which exceeds `maxPacketSize - 1 = 1`), `sequencePacket`
produces the slice `[1,2]` of `maxPacketSize` bytes — more than the claimed
`maxPacketSize - 1` — and `sendPacket` emits the framed message `[7,1,2]`
of 3 bytes, exceeding `maxPacketSize = 2`. -/
theorem sendPacket_oversize_counterexample :
    2 - 1 < ([1, 2, 3] : List Nat).length ∧
    sequencePacket 2 [1, 2, 3] = [[1, 2], [3]] ∧
    ¬ (∀ c ∈ sequencePacket 2 [1, 2, 3], c.length ≤ 2 - 1) ∧
    sendPacket 2 7 [1, 2, 3] = [[7, 1, 2], [7, 3]] ∧
    ¬ (∀ p ∈ sendPacket 2 7 [1, 2, 3], p.length ≤ 2) := by
  decide

/-- C4 amended: `sendPacket` splits an outbound payload into slices of at
most `maxPacketSize` bytes (not `maxPacketSize - 1`), emits one framed
packet per slice carrying the same header byte, in order; each framed
message therefore has at most `maxPacketSize + 1` bytes, and the emitted
slices concatenate, in emission order, to the original payload. -/
theorem sendPacket_split_correct (m hd : Nat) (data : List Nat) (hm : 1 ≤ m) :
    (sendPacket m hd data = (sequencePacket m data).map (fun c => hd :: c)) ∧
    ((sequencePacket m data).flatten = data) ∧
    (∀ c ∈ sequencePacket m data, c.length ≤ m) ∧
    (∀ p ∈ sendPacket m hd data, p.length ≤ m + 1 ∧ p.head? = some hd) := by
  refine ⟨rfl, sequencePacket_flatten m hm data, sequencePacket_slice_le m hm data, ?_⟩
  intro p hp
  simp only [sendPacket, List.mem_map] at hp
  obtain ⟨c, hc, rfl⟩ := hp
  constructor
  · have := sequencePacket_slice_le m hm data c hc
    simp only [List.length_cons]
    omega
  · rfl

/-- Witness for C4 (amended) at `maxPacketSize = 2`, header `7`, payload
`[1,2,3]`. -/
theorem sendPacket_split_correct_witness :
    (sendPacket 2 7 [1, 2, 3] = (sequencePacket 2 [1, 2, 3]).map (fun c => 7 :: c)) ∧
    ((sequencePacket 2 [1, 2, 3]).flatten = [1, 2, 3]) ∧
    (∀ c ∈ sequencePacket 2 [1, 2, 3], c.length ≤ 2) ∧
    (∀ p ∈ sendPacket 2 7 [1, 2, 3], p.length ≤ 3 ∧ p.head? = some 7) :=
  sendPacket_split_correct 2 7 [1, 2, 3] (by decide)

/-- Counterexample to C9 as stated: the 1-byte packet `[52]` is valid
(its length lies between 1 and `maxPacketSize = 5`) and decodes to header
`52` with empty payload, but re-encoding that pair through `sendPacket`
emits no packet at all (`sequencePacket` of an empty payload is the empty
sequence), so the round trip does not reproduce the packet. -/
theorem framing_roundtrip_counterexample :
    1 ≤ ([52] : List Nat).length ∧ ([52] : List Nat).length ≤ 5 ∧
    framingDecode 5 [52] = some (52, []) ∧
    sendPacket 5 52 [] = [] ∧
    sendPacket 5 52 [] ≠ [[52]] := by
  decide

/-- C9 amended: for every valid packet of length at least 2 (non-empty
payload) and at most `maxPacketSize`, decoding and re-encoding reproduces
exactly the original packet as the single emitted framed message.  (A
1-byte packet re-encodes to no messages, because `sendPacket` iterates
over the slices of an empty payload; empty-payload headers are emitted by
the separate `sendHeader` path of the source.) -/
theorem framing_roundtrip (m : Nat) (p : List Nat) (hm : 1 ≤ m)
    (h2 : 2 ≤ p.length) (hle : p.length ≤ m) :
    ∃ hd tl, framingDecode m p = some (hd, tl) ∧ sendPacket m hd tl = [p] := by
  cases p with
  | nil => simp at h2
  | cons a l =>
      refine ⟨a, l, ?_, ?_⟩
      · have hcond : ¬ (m ≠ 0 ∧ (a :: l).length > m) := by
          simp only [List.length_cons] at hle ⊢
          omega
        simp only [framingDecode]
        rw [if_neg hcond]
      · cases l with
        | nil => simp at h2
        | cons b t =>
            have hlt : (b :: t).length ≤ m := by
              simp only [List.length_cons] at hle ⊢
              omega
            simp only [sendPacket]
            rw [sequencePacket_cons m hm]
            rw [List.take_of_length_le hlt, List.drop_eq_nil_of_le hlt]
            rfl

/-- Witness for C9 (amended) at `maxPacketSize = 5` and packet `[52, 1]`. -/
theorem framing_roundtrip_witness :
    ∃ hd tl, framingDecode 5 [52, 1] = some (hd, tl) ∧
      sendPacket 5 hd tl = [[52, 1]] :=
  framing_roundtrip 5 [52, 1] (by decide) (by decide) (by decide)

/-- C1: on a watchdog tick whose elapsed time since `lastChunkTime` exceeds
`chunkWaitTimeout` (default 10000 ms), the session stops — the watchdog is
cancelled and `encoder.stop` is invoked — the `timeout` event is emitted,
and the owning client session sends the single-byte header `0x36`
(ChunkWaitTimeout) to the peer. -/
theorem chunk_watchdog_timeout (s : AVState) (now : Int)
    (h : now - s.lastChunkTime > s.chunkWaitTimeout) :
    (onChunkWaitCheckInterval s now).timedOut = true ∧
    (onChunkWaitCheckInterval s now).encoderStopInvoked = true ∧
    (onChunkWaitCheckInterval s now).state.watchdogActive = false ∧
    (onChunkWaitCheckInterval s now).state.isRunning = false ∧
    (onChunkWaitCheckInterval s now).state = avStop s ∧
    clientHeadersOnTick s now = [0x36] ∧
    DEFAULT_CHUNK_WAIT_TIMEOUT = 10000 := by
  simp [onChunkWaitCheckInterval, clientHeadersOnTick, if_pos h, avStop,
    DEFAULT_CHUNK_WAIT_TIMEOUT]

/-- Witness for C1: a session whose last chunk arrived at t = 0 ms with the
default 10 s timeout, ticked at t = 10001 ms. -/
theorem chunk_watchdog_timeout_witness :
    (onChunkWaitCheckInterval
        { isRunning := true, isReady := true, lastChunkTime := 0,
          watchdogActive := true, frameQueue := [[1]],
          isProcessingFrame := false, frameInterval := 0, lastFrameTime := 0,
          chunkWaitTimeout := 10000 } 10001).timedOut = true ∧
    clientHeadersOnTick
        { isRunning := true, isReady := true, lastChunkTime := 0,
          watchdogActive := true, frameQueue := [[1]],
          isProcessingFrame := false, frameInterval := 0, lastFrameTime := 0,
          chunkWaitTimeout := 10000 } 10001 = [0x36] := by
  have h := chunk_watchdog_timeout
    { isRunning := true, isReady := true, lastChunkTime := 0,
      watchdogActive := true, frameQueue := [[1]],
      isProcessingFrame := false, frameInterval := 0, lastFrameTime := 0,
      chunkWaitTimeout := 10000 } 10001 (by decide)
  exact ⟨h.1, h.2.2.2.2.2.1⟩

/-- Counterexample to C5 as stated: in the revision the claim cites
(`src/server/src/av/index.ts`, `AV.put`, lines 101-116), a `put` issued
while the processor is not running logs `"Video processor is not running"`
and returns early — the chunk is indeed dropped, but **no** header `0x35`
is sent to the peer (the legacy revision `src/server/src/av.ts` did call
`sendHeader(0x35)` there). -/
theorem put_not_running_counterexample :
    stoppedSession.isRunning = false ∧
    (avPut stoppedSession 5 [1, 2]).2.2 = [] ∧
    (0x35 : Nat) ∉ (avPut stoppedSession 5 [1, 2]).2.2 ∧
    (avPut stoppedSession 5 [1, 2]).2.1 = false ∧
    (avPut stoppedSession 5 [1, 2]).1.frameQueue = [] := by
  refine ⟨rfl, rfl, ?_, rfl, rfl⟩
  simp [avPut, stoppedSession]

/-- C5 amended: a `put` issued while the processor is not running updates
`lastChunkTime`, drops the chunk (nothing is enqueued) and changes nothing
else; no header — in particular no `0x35` — is sent from `put`. -/
theorem put_not_running_drops_silently (s : AVState) (now : Int)
    (data : List Nat) (h : s.isRunning = false) :
    (avPut s now data).1 = { s with lastChunkTime := now } ∧
    (avPut s now data).2.1 = false ∧
    (avPut s now data).2.2 = [] := by
  simp [avPut, h]

/-- Witness for C5 (amended) on the concrete stopped session. -/
theorem put_not_running_drops_silently_witness :
    (avPut stoppedSession 7 [9]).1 = { stoppedSession with lastChunkTime := 7 } ∧
    (avPut stoppedSession 7 [9]).2.1 = false ∧
    (avPut stoppedSession 7 [9]).2.2 = [] :=
  put_not_running_drops_silently stoppedSession 7 [9] rfl

theorem avPut_lastChunkTime (s : AVState) (now : Int) (data : List Nat) :
    (avPut s now data).1.lastChunkTime = now := by
  cases h : s.isRunning <;> simp [avPut, h]

theorem avPut_chunkWaitTimeout (s : AVState) (now : Int) (data : List Nat) :
    (avPut s now data).1.chunkWaitTimeout = s.chunkWaitTimeout := by
  cases h : s.isRunning <;> simp [avPut, h]

/-- If every watchdog tick follows the latest chunk by at most the
timeout, no tick of the trace ever emits `timeout`. -/
theorem runAV_no_timeout (evs : List AVEvent) :
    ∀ s : AVState,
      chunkGapsOK s.chunkWaitTimeout s.lastChunkTime evs = true →
      (runAV s evs).2 = false := by
  induction evs with
  | nil => intro s _; rfl
  | cons e rest ih =>
      intro s hg
      cases e with
      | put t d =>
          show (runAV (avPut s t d).1 rest).2 = false
          apply ih
          rw [avPut_lastChunkTime, avPut_chunkWaitTimeout]
          exact hg
      | tick t =>
          have hcond : t - s.lastChunkTime ≤ s.chunkWaitTimeout := by
            by_contra hc
            simp only [chunkGapsOK, if_neg hc] at hg
            exact Bool.false_ne_true hg
          have hrest : chunkGapsOK s.chunkWaitTimeout s.lastChunkTime rest = true := by
            simpa only [chunkGapsOK, if_pos hcond] using hg
          have hno : onChunkWaitCheckInterval s t
              = { state := s, timedOut := false, encoderStopInvoked := false } := by
            simp only [onChunkWaitCheckInterval]
            rw [if_neg (by omega)]
          show ((runAV (onChunkWaitCheckInterval s t).state rest).1,
              (onChunkWaitCheckInterval s t).timedOut
                || (runAV (onChunkWaitCheckInterval s t).state rest).2).2 = false
          rw [hno]
          simpa using ih s hrest

/-- C10: every `put` — also one issued while the processor is not running,
whose chunk is dropped — sets `lastChunkTime` to the current time, and in
the not-running case changes nothing else (frame queue untouched); hence a
client that keeps `put`-ing into a session whose encoder has exited keeps
resetting the chunk-arrival watchdog, and over any trace in which each
tick arrives within `chunkWaitTimeout` of the latest chunk, the timeout
never fires. -/
theorem put_keeps_resetting_watchdog (s : AVState) (now : Int)
    (d : List Nat) (evs : List AVEvent) (hrun : s.isRunning = false)
    (hgaps : chunkGapsOK s.chunkWaitTimeout s.lastChunkTime evs = true) :
    (avPut s now d).1.lastChunkTime = now ∧
    (avPut s now d).1 = { s with lastChunkTime := now } ∧
    (avPut s now d).1.frameQueue = s.frameQueue ∧
    (runAV s evs).2 = false := by
  refine ⟨avPut_lastChunkTime s now d, ?_, ?_, runAV_no_timeout evs s hgaps⟩
  · simp [avPut, hrun]
  · simp [avPut, hrun]

/-- Witness for C10: the stopped session, a `put` at t = 5, and the trace
`put 9000, tick 10001, put 15000, tick 20000` — each tick within 10 s of
the latest chunk — fires no timeout. -/
theorem put_keeps_resetting_watchdog_witness :
    (avPut stoppedSession 5 [3]).1.lastChunkTime = 5 ∧
    (avPut stoppedSession 5 [3]).1 = { stoppedSession with lastChunkTime := 5 } ∧
    (avPut stoppedSession 5 [3]).1.frameQueue = stoppedSession.frameQueue ∧
    (runAV stoppedSession
      [AVEvent.put 9000 [1], AVEvent.tick 10001,
       AVEvent.put 15000 [2], AVEvent.tick 20000]).2 = false :=
  put_keeps_resetting_watchdog stoppedSession 5 [3]
    [AVEvent.put 9000 [1], AVEvent.tick 10001,
     AVEvent.put 15000 [2], AVEvent.tick 20000]
    rfl (by decide)

/-- C2: with fps `f` the frame interval is `1000 / f` ms (30 fps when fps
is absent); the dispatch instant `now + frameWait` is always at least
`frameInterval` after the previous dispatch, and a chunk whose elapsed
time already reaches `frameInterval` is dispatched with zero wait;
`f = 1` gives 1000 ms and `f = 60` gives `1000/60 ∈ [16, 17]` ms. -/
theorem frame_pacing (f : Nat) (hf : 0 < f) (now last : ℚ) :
    frameIntervalOf (some f) = 1000 / f ∧
    frameIntervalOf none = 1000 / 30 ∧
    now + frameWait (1000 / f) now last - last ≥ 1000 / f ∧
    (1000 / f ≤ now - last → frameWait (1000 / f) now last = 0) ∧
    frameIntervalOf (some 1) = 1000 ∧
    16 ≤ frameIntervalOf (some 60) ∧ frameIntervalOf (some 60) ≤ 17 := by
  have hne : f ≠ 0 := Nat.pos_iff_ne_zero.mp hf
  refine ⟨?_, rfl, ?_, ?_, by norm_num [frameIntervalOf], ?_, ?_⟩
  · simp [frameIntervalOf, hne]
  · dsimp only [frameWait]
    split_ifs with hlt
    · linarith
    · push_neg at hlt
      linarith
  · intro h
    dsimp only [frameWait]
    rw [if_neg (by push_neg; linarith)]
  · norm_num [frameIntervalOf]
  · norm_num [frameIntervalOf]

/-- Counterexample to C6 as stated: the code never checks the parameter
*name*, only the text between the first and second `=` of the whole query.
With configured key `secret`, the URL `/?x=secret` — whose `authKey`
parameter is absent — is accepted; conversely `/?authKey=secret&x=1` —
whose `authKey` parameter equals the key — is rejected with 1002. -/
theorem auth_name_ignored_counterexample :
    ("secret".toList : List Char) ≠ [] ∧
    specAuthKeyParam (some "/?x=secret".toList) = none ∧
    onConnected "secret".toList (some "/?x=secret".toList) = ConnOutcome.accepted ∧
    specAuthKeyParam (some "/?authKey=secret&x=1".toList) = some "secret".toList ∧
    onConnected "secret".toList (some "/?authKey=secret&x=1".toList)
      = ConnOutcome.rejected 1002 := by
  decide

/-- C6 amended: an empty configured key accepts every connection (any or
no client key); a non-empty key accepts exactly the URLs whose query part
has the configured key strictly between its first and second `=` (or end)
— the parameter name is never inspected, which coincides with comparing
the `authKey` parameter precisely for URLs of the shape `path?authKey=v`
with `v` free of `=` and `&` — and on mismatch the socket is closed with
code 1002 and no client session is created. -/
theorem auth_check (serverKey : List Char) (url : Option (List Char)) :
    (serverKey = [] → onConnected serverKey url = ConnOutcome.accepted) ∧
    (serverKey ≠ [] →
      (onConnected serverKey url = ConnOutcome.accepted ↔
        extractAuthKey url = some serverKey) ∧
      (extractAuthKey url ≠ some serverKey →
        onConnected serverKey url = ConnOutcome.rejected 1002)) := by
  constructor
  · intro h
    simp [onConnected, verifyAuthKey, h]
  · intro h
    constructor
    · constructor
      · intro hacc
        by_contra hne
        simp [onConnected, verifyAuthKey, h, hne] at hacc
      · intro he
        simp [onConnected, verifyAuthKey, he]
    · intro hne
      simp [onConnected, verifyAuthKey, h, hne]

/-- Witness for C6 (amended): key `secret` accepts `/?authKey=secret` and
rejects `/?authKey=wrong` with 1002; an empty key accepts a URL with no
query at all. -/
theorem auth_check_witness :
    onConnected "secret".toList (some "/?authKey=secret".toList)
      = ConnOutcome.accepted ∧
    onConnected "secret".toList (some "/?authKey=wrong".toList)
      = ConnOutcome.rejected 1002 ∧
    onConnected [] (some "/".toList) = ConnOutcome.accepted := by
  refine ⟨?_, ?_, ?_⟩
  · exact ((auth_check "secret".toList (some "/?authKey=secret".toList)).2
      (by decide)).1.mpr (by decide)
  · exact ((auth_check "secret".toList (some "/?authKey=wrong".toList)).2
      (by decide)).2 (by decide)
  · exact (auth_check [] (some "/".toList)).1 rfl

/-- Witness for C2 at `f = 60`, a dispatch at `now = 100` ms whose
previous dispatch was at `last = 90` ms. -/
theorem frame_pacing_witness :
    frameIntervalOf (some 60) = 1000 / 60 ∧
    frameIntervalOf none = 1000 / 30 ∧
    (100 : ℚ) + frameWait (1000 / 60) 100 90 - 90 ≥ 1000 / 60 ∧
    ((1000 : ℚ) / 60 ≤ 100 - 90 → frameWait (1000 / 60) 100 90 = 0) ∧
    frameIntervalOf (some 1) = 1000 ∧
    16 ≤ frameIntervalOf (some 60) ∧ frameIntervalOf (some 60) ≤ 17 := by
  have h := frame_pacing 60 (by decide) 100 90
  simpa using h

/-- C7: for every stream config whose video codec is one of the three
codecs the adapter recognizes (`libx264`, `h264_nvenc`, `hevc_nvenc` —
the enumeration of §3), the synthesized argument list contains `-g`
followed by the GOP value `round(fps * 2) = 2 * fps`. -/
theorem ffmpeg_gop_is_twice_fps (c : FFStreamConfig)
    (hc : c.video.codec = "libx264" ∨ c.video.codec = "h264_nvenc" ∨
      c.video.codec = "hevc_nvenc") :
    ∃ i, (buildFFmpegArgs c).get? i = some "-g" ∧
      (buildFFmpegArgs c).get? (i + 1) = some (toString (c.video.fps * 2)) := by
  rcases hc with h | h | h
  · refine ⟨16, ?_, ?_⟩ <;> simp [buildFFmpegArgs, h]
  · refine ⟨24, ?_, ?_⟩ <;> simp [buildFFmpegArgs, h]
  · refine ⟨24, ?_, ?_⟩ <;> simp [buildFFmpegArgs, h]

/-- Witness for C7 at fps 25 (GOP 50), codec `libx264`, the defaults for
the rest (`src/server/src/defaults.ts`). -/
theorem ffmpeg_gop_is_twice_fps_witness :
    ∃ i, (buildFFmpegArgs
        { video := { codec := "libx264", bitrate := 3000, fps := 25 },
          audio := { codec := "aac", bitrate := 128000, sampleRate := 44100 },
          destination := { type := some "file", path := some "output.mp4" } }).get? i
        = some "-g" ∧
      (buildFFmpegArgs
        { video := { codec := "libx264", bitrate := 3000, fps := 25 },
          audio := { codec := "aac", bitrate := 128000, sampleRate := 44100 },
          destination := { type := some "file", path := some "output.mp4" } }).get? (i + 1)
        = some "50" :=
  ffmpeg_gop_is_twice_fps
    { video := { codec := "libx264", bitrate := 3000, fps := 25 },
      audio := { codec := "aac", bitrate := 128000, sampleRate := 44100 },
      destination := { type := some "file", path := some "output.mp4" } }
    (Or.inl rfl)

/-- A call that returns `null` leaves the module state unchanged. -/
theorem parseGstStats_none_state (st : GstParserState) (line : GstLine)
    (h : (parseGstStats st line).1 = none) :
    (parseGstStats st line).2 = st := by
  cases hEnd : line.hasEnd with
  | false => simp [parseGstStats, hEnd]
  | true =>
      cases htm : line.timeMatch with
      | none => simp [parseGstStats, hEnd, htm]
      | some q =>
          obtain ⟨hh, mm, ss, uu⟩ := q
          by_cases hc : ⌊gstTimestamp hh mm ss uu⌋ ≤ st.lastProcessedTimestamp
          · simp [parseGstStats, hEnd, htm, hc]
          · exfalso
            simp [parseGstStats, hEnd, htm, hc] at h

/-- Floored timestamp of an emitted record: it strictly exceeds the stored one,
and becomes the new stored value. -/
theorem parseGstStats_some_state (st : GstParserState) (line : GstLine)
    (r : GSTStats) (h : (parseGstStats st line).1 = some r) :
    st.lastProcessedTimestamp < ⌊r.timestamp⌋ ∧
    (parseGstStats st line).2.lastProcessedTimestamp = ⌊r.timestamp⌋ := by
  cases hEnd : line.hasEnd with
  | false => simp [parseGstStats, hEnd] at h
  | true =>
      cases htm : line.timeMatch with
      | none => simp [parseGstStats, hEnd, htm] at h
      | some q =>
          obtain ⟨hh, mm, ss, uu⟩ := q
          by_cases hc : ⌊gstTimestamp hh mm ss uu⌋ ≤ st.lastProcessedTimestamp
          · simp [parseGstStats, hEnd, htm, hc] at h
          · have hr : r = gstResult st line (gstTimestamp hh mm ss uu) := by
              simp [parseGstStats, hEnd, htm, hc] at h
              exact h.symm
            subst hr
            have hts : (gstResult st line (gstTimestamp hh mm ss uu)).timestamp
                = gstTimestamp hh mm ss uu := rfl
            constructor
            · rw [hts]
              omega
            · simp [parseGstStats, hEnd, htm, hc, hts]

/-- Emitted records have strictly increasing floored timestamps, all above
the stored value of the starting state. -/
theorem runGst_strict_mono (ls : List GstLine) :
    ∀ st : GstParserState,
      (∀ r ∈ runGst st ls, st.lastProcessedTimestamp < ⌊r.timestamp⌋) ∧
      List.Chain' (fun a b => ⌊a.timestamp⌋ < ⌊b.timestamp⌋) (runGst st ls) := by
  induction ls with
  | nil => intro st; exact ⟨by simp [runGst], by simp [runGst]⟩
  | cons l rest ih =>
      intro st
      cases ho : (parseGstStats st l).1 with
      | none =>
          have hst := parseGstStats_none_state st l ho
          have hrun : runGst st (l :: rest) = runGst st rest := by
            simp only [runGst]
            rw [ho, hst]
          rw [hrun]
          exact ih st
      | some r =>
          have hstate := parseGstStats_some_state st l r ho
          have hrun : runGst st (l :: rest)
              = r :: runGst (parseGstStats st l).2 rest := by
            simp only [runGst]
            rw [ho]
          rw [hrun]
          obtain ⟨ihmem, ihchain⟩ := ih (parseGstStats st l).2
          constructor
          · intro x hx
            rcases List.mem_cons.mp hx with hx | hx
            · subst hx; exact hstate.1
            · have := ihmem x hx
              omega
          · rw [List.chain'_cons']
            refine ⟨?_, ihchain⟩
            intro y hy
            have hmem : y ∈ runGst (parseGstStats st l).2 rest :=
              List.mem_of_mem_head? hy
            have := ihmem y hmem
            omega

/-- C8: `parseGstStats` emits at most one record per truncated second — a
call whose parsed timestamp has a floor less than or equal to the stored
floored timestamp of the last emitted record returns `null` and leaves the
state untouched, and over any call sequence the floored timestamps of the
emitted records are strictly increasing. -/
theorem gst_stats_rate_limited (st : GstParserState) (line : GstLine)
    (ls : List GstLine) :
    (∀ h m s micro, line.timeMatch = some (h, m, s, micro) →
      ⌊gstTimestamp h m s micro⌋ ≤ st.lastProcessedTimestamp →
      parseGstStats st line = (none, st)) ∧
    List.Chain' (fun a b => ⌊a.timestamp⌋ < ⌊b.timestamp⌋) (runGst st ls) := by
  constructor
  · intro h m s micro htm hle
    cases hEnd : line.hasEnd with
    | false => simp [parseGstStats, hEnd]
    | true => simp [parseGstStats, hEnd, htm, hle]
  · exact (runGst_strict_mono ls st).2

/-- Witness for C8: from the initial state, a chunk carrying
`next_ts 0:00:00.000000` is suppressed (floor 0 is not above the stored
0), and the trace `[t = 0 s, t = 1.5 s, t = 1.9 s, t = 2.5 s]` emits
records with strictly increasing floored timestamps. -/
theorem gst_stats_rate_limited_witness :
    parseGstStats gstInitialState
      { hasEnd := true, timeMatch := some (0, 0, 0, 0), inMatch := none,
        outMatch := some 30, dropMatch := none, dupMatch := none }
      = (none, gstInitialState) ∧
    List.Chain' (fun a b => ⌊a.timestamp⌋ < ⌊b.timestamp⌋)
      (runGst gstInitialState
        [{ hasEnd := true, timeMatch := some (0, 0, 0, 0), inMatch := none,
           outMatch := some 30, dropMatch := none, dupMatch := none },
         { hasEnd := true, timeMatch := some (0, 0, 1, 500000), inMatch := none,
           outMatch := some 60, dropMatch := none, dupMatch := none },
         { hasEnd := true, timeMatch := some (0, 0, 1, 900000), inMatch := none,
           outMatch := some 72, dropMatch := none, dupMatch := none },
         { hasEnd := true, timeMatch := some (0, 0, 2, 500000), inMatch := none,
           outMatch := some 90, dropMatch := none, dupMatch := none }]) := by
  constructor
  · exact (gst_stats_rate_limited gstInitialState
      { hasEnd := true, timeMatch := some (0, 0, 0, 0), inMatch := none,
        outMatch := some 30, dropMatch := none, dupMatch := none } []).1
      0 0 0 0 rfl (by simp [gstTimestamp, gstInitialState])
  · exact (gst_stats_rate_limited gstInitialState
      { hasEnd := true, timeMatch := some (0, 0, 0, 0), inMatch := none,
        outMatch := some 30, dropMatch := none, dupMatch := none }
      [{ hasEnd := true, timeMatch := some (0, 0, 0, 0), inMatch := none,
         outMatch := some 30, dropMatch := none, dupMatch := none },
       { hasEnd := true, timeMatch := some (0, 0, 1, 500000), inMatch := none,
         outMatch := some 60, dropMatch := none, dupMatch := none },
       { hasEnd := true, timeMatch := some (0, 0, 1, 900000), inMatch := none,
         outMatch := some 72, dropMatch := none, dupMatch := none },
       { hasEnd := true, timeMatch := some (0, 0, 2, 500000), inMatch := none,
         outMatch := some 90, dropMatch := none, dupMatch := none }]).2

end Glock
